import Mathlib

/-!
Verification of the AgriSense rule-based expert system (src/agrisense.py).

The repository supplies the fact kinds, helper `interpret_npk`, and the ten
domain rules of `AgriSenseEngine`; those are embedded here directly from the
source.  The forward-chaining engine that evaluates them (pattern matcher,
agenda, run loop) is the `experta` library, which is not part of the
repository sources; it is modelled from the specification (sections 4.2-4.4):
patterns select facts of a kind and constrain attributes by literal equality,
variable capture or guard predicate; conjunctions join bindings; negation
matches when the wrapped pattern has no match; the agenda orders activations
by rule declaration order (all rules share the default salience) and, within
a rule, by recency; a fired activation never fires again.
-/

set_option maxHeartbeats 1000000

namespace AgriSense

/-- Fact kinds of the repository (the eight `Fact` subclasses in
src/agrisense.py lines 18-49).  None of them declares required attributes. -/
inductive FactKind where
  | crop | soil | lab | symptoms | weather | pest | diagnosis | recommendation
deriving DecidableEq, Repr

/-- Attribute values: strings, booleans, numbers (Python ints and floats,
modelled as rationals), lists of strings (used by rule bodies), and None. -/
inductive Value where
  | vStr (s : String)
  | vBool (b : Bool)
  | vNum (q : Rat)
  | vList (l : List String)
  | vNone
deriving DecidableEq, Repr

/-- A fact: a kind plus an attribute mapping (association list). -/
structure Fact where
  kind : FactKind
  attrs : List (String × Value)
deriving DecidableEq, Repr

/-- Attribute access; `none` when the attribute is absent on the fact. -/
def Fact.get (f : Fact) (a : String) : Option Value :=
  f.attrs.lookup a

/-- A fact in working memory, carrying its monotonically assigned identity. -/
structure WFact where
  fid : Nat
  fact : Fact
deriving DecidableEq, Repr

/-- A variable binding produced by pattern matching. -/
abbrev Binding := List (String × Value)

/-- Look a variable up in a binding. -/
def lookupB (b : Binding) (x : String) : Option Value :=
  List.lookup x b

/-- A single attribute constraint of a pattern: literal equality, capture of
the value into a named variable (experta `MATCH.x`), or a guard predicate on
the value (experta `P(lambda ...)`). -/
inductive Constraint where
  | lit (v : Value)
  | bind (x : String)
  | pred (g : Value → Bool)

/-- A fact pattern: target kind plus attribute constraints.  A fact matches
only if every constrained attribute is present with a conforming value. -/
structure Pattern where
  kind : FactKind
  constraints : List (String × Constraint)

/-- One conjunct of a rule's left-hand side: a positive pattern, a negated
pattern (experta `NOT(...)`), or a disjunction of patterns (experta `|`). -/
inductive Cond where
  | pat (p : Pattern)
  | npat (p : Pattern)
  | orp (ps : List Pattern)

/-- The fact kinds a condition can observe. -/
def Cond.kinds : Cond → List FactKind
  | .pat p => [p.kind]
  | .npat p => [p.kind]
  | .orp ps => ps.map Pattern.kind

/-- Apply one constraint to an attribute value, extending the binding. -/
def applyConstraint (b : Binding) (c : Constraint) (v : Value) : Option Binding :=
  match c with
  | .lit w => if v = w then some b else none
  | .bind x =>
      match lookupB b x with
      | some w => if v = w then some b else none
      | none => some (b ++ [(x, v)])
  | .pred g => if g v then some b else none

/-- Match one fact against a pattern under a binding.  An absent attribute
never matches: every constrained attribute must be present on the fact. -/
def matchFact (p : Pattern) (b : Binding) (f : Fact) : Option Binding :=
  p.constraints.foldlM
    (fun acc ac =>
      match f.get ac.1 with
      | none => none
      | some v => applyConstraint acc ac.2 v)
    b

/-- All matches of a pattern over the fact base: extended bindings paired
with the identity of the supporting fact. -/
def matchPattern (db : List WFact) (p : Pattern) (b : Binding) : List (Binding × Nat) :=
  db.filterMap (fun w =>
    if w.fact.kind = p.kind then
      (matchFact p b w.fact).map (fun b2 => (b2, w.fid))
    else none)

/-- Match one condition under a binding, returning extended bindings with
their supporting fact identities.  Negation matches exactly when the wrapped
pattern has no match over the current fact base and contributes no variables;
disjunction unions its branches with duplicates collapsed. -/
def matchCond (db : List WFact) (c : Cond) (b : Binding) : List (Binding × List Nat) :=
  match c with
  | .pat p => (matchPattern db p b).map (fun r => (r.1, [r.2]))
  | .npat p => if matchPattern db p b = [] then [(b, [])] else []
  | .orp ps =>
      (((ps.map (fun p => matchPattern db p b)).flatten).map (fun r => (r.1, [r.2]))).dedup

/-- Extend a set of partial matches by one more condition (relational join). -/
def extendStep (db : List WFact) (acc : List (Binding × List Nat)) (c : Cond) :
    List (Binding × List Nat) :=
  acc.flatMap (fun x => (matchCond db c x.1).map (fun r => (r.1, x.2 ++ r.2)))

/-- All matches of a conjunction of conditions over the fact base. -/
def matchConds (db : List WFact) (cs : List Cond) : List (Binding × List Nat) :=
  cs.foldl (extendStep db) [([], [])]

/-- A rule: name, left-hand side, a `TEST` guard over the binding, and a body
producing the facts the rule declares. -/
structure Rule where
  name : String
  lhs : List Cond
  test : Binding → Bool
  body : Binding → List Fact

/-- All activations of one rule over the fact base. -/
def ruleActs (db : List WFact) (r : Rule) : List (Binding × List Nat) :=
  (matchConds db r.lhs).filter (fun x => r.test x.1)

/-- Qualitative NPK levels (src/agrisense.py `interpret_npk`). -/
def level (x : Rat) : String :=
  if x < 50 then "low" else if x < 150 then "medium" else "high"

/-- Return qualitative levels for simple thresholding (source helper). -/
def interpret_npk (n p k : Rat) : String × String × String :=
  (level n, level p, level k)

/-- Fixed two-decimal rendering of a rational, as Python string formatting
with `.2f` produces (round half to even). -/
def formatFixed2 (q : Rat) : String :=
  let neg := decide (q < 0)
  let aq := if q < 0 then -q else q
  let num100 : Int := aq.num * 100
  let scaled : Int := num100 / (aq.den : Int)
  let rem : Int := num100 % (aq.den : Int)
  let n : Int :=
    if 2 * rem > (aq.den : Int) then scaled + 1
    else if 2 * rem < (aq.den : Int) then scaled
    else if scaled % 2 = 0 then scaled else scaled + 1
  let nn := n.toNat
  (if neg ∧ nn ≠ 0 then "-" else "") ++ toString (nn / 100) ++ "." ++
    (if nn % 100 < 10 then "0" else "") ++ toString (nn % 100)

/-- Body of the powdery mildew rule. -/
def powdery_mildew_body (_ : Binding) : List Fact :=
  [Fact.mk .diagnosis
    [("disease", .vStr "Powdery Mildew"),
     ("confidence", .vNum (mkRat 4 5)),
     ("notes", .vStr "Look for white powder on leaf surfaces")],
   Fact.mk .recommendation
    [("treatment", .vStr "Apply fungicide targeting powdery mildew; improve air circulation; remove heavily infected leaves")]]

/-- Rule `powdery_mildew` (src lines 71-76). -/
def powdery_mildew : Rule :=
  { name := "powdery_mildew"
    lhs := [.pat ⟨.symptoms, [("leaf_spots", .lit (.vBool true)), ("powdery_white", .lit (.vBool true))]⟩]
    test := fun _ => true
    body := powdery_mildew_body }

/-- Body of the blight rule. -/
def blight_like_body (_ : Binding) : List Fact :=
  [Fact.mk .diagnosis
    [("disease", .vStr "Blight-like infection (possible bacterial/fungal)"),
     ("confidence", .vNum (mkRat 17 20)),
     ("notes", .vStr "Leaf spots + stem lesions; wet humid weather favors blights")],
   Fact.mk .recommendation
    [("treatment", .vStr "Use appropriate bactericide/fungicide; remove infected material; avoid overhead irrigation")]]

/-- Rule `blight_like` (src lines 78-84); the humidity guard is the source
predicate `lambda h: h > 75` (a non-numeric humidity would be a guard error
in the source; it is treated as no match here, a case no rule input builds). -/
def blight_like : Rule :=
  { name := "blight_like"
    lhs := [.pat ⟨.symptoms, [("leaf_spots", .lit (.vBool true)), ("stem_lesions", .lit (.vBool true))]⟩,
            .pat ⟨.weather, [("humidity", .pred (fun v =>
              match v with
              | .vNum h => decide (h > 75)
              | _ => false))]⟩]
    test := fun _ => true
    body := blight_like_body }

/-- Body of the viral mosaic rule. -/
def viral_mosaic_body (_ : Binding) : List Fact :=
  [Fact.mk .diagnosis
    [("disease", .vStr "Viral Mosaic"),
     ("confidence", .vNum (mkRat 9 10)),
     ("notes", .vStr "Mosaic patterns on leaves often indicate virus; vector control important")],
   Fact.mk .recommendation
    [("treatment", .vStr "No chemical cure for virus; rogue and destroy infected plants; control aphids/whiteflies")]]

/-- Rule `viral_mosaic` (src lines 86-91). -/
def viral_mosaic : Rule :=
  { name := "viral_mosaic"
    lhs := [.pat ⟨.symptoms, [("mosaic", .lit (.vBool true))]⟩]
    test := fun _ => true
    body := viral_mosaic_body }

/-- Body of the insect damage rule. -/
def insect_damage_wilt_body (_ : Binding) : List Fact :=
  [Fact.mk .diagnosis
    [("disease", .vStr "Insect damage (larval feeding)"),
     ("confidence", .vNum (mkRat 3 4)),
     ("notes", .vStr "Wilting with caterpillars suggests stem/root boring or heavy defoliation")],
   Fact.mk .recommendation
    [("treatment", .vStr "Inspect for larvae; use biological control (Bt) or targeted insecticide; remove affected parts")]]

/-- Rule `insect_damage_wilt` (src lines 93-99). -/
def insect_damage_wilt : Rule :=
  { name := "insect_damage_wilt"
    lhs := [.pat ⟨.symptoms, [("wilting", .lit (.vBool true))]⟩,
            .pat ⟨.pest, [("caterpillars", .lit (.vBool true))]⟩]
    test := fun _ => true
    body := insect_damage_wilt_body }

/-- Body of the nitrogen deficiency rule. -/
def nitrogen_deficiency_symptom_body (_ : Binding) : List Fact :=
  [Fact.mk .diagnosis
    [("disease", .vStr "Nutrient deficiency - Nitrogen"),
     ("confidence", .vNum (mkRat 4 5)),
     ("notes", .vStr "Yellowing, especially older leaves, suggests N deficiency")],
   Fact.mk .recommendation
    [("treatment", .vStr "Top-dress with nitrogenous fertilizer (e.g., urea) as per crop need; split applications")]]

/-- Rule `nitrogen_deficiency_symptom` (src lines 101-107). -/
def nitrogen_deficiency_symptom : Rule :=
  { name := "nitrogen_deficiency_symptom"
    lhs := [.pat ⟨.symptoms, [("yellowing", .lit (.vBool true))]⟩,
            .pat ⟨.lab, [("N", .pred (fun v =>
              match v with
              | .vNum n => decide (n < 50)
              | _ => false))]⟩]
    test := fun _ => true
    body := nitrogen_deficiency_symptom_body }

/-- Body of the generic NPK fertilizer rule (src lines 110-122). -/
def fertilizer_npk_evaluation_body (b : Binding) : List Fact :=
  match lookupB b "N", lookupB b "P", lookupB b "K" with
  | some (.vNum n), some (.vNum p), some (.vNum k) =>
      let lv := interpret_npk n p k
      let recs :=
        (if lv.1 = "low" then ["Apply nitrogen fertilizer (e.g., Urea or CAN) - consider split dosing"] else []) ++
        (if lv.2.1 = "low" then ["Apply phosphorus fertilizer (e.g., Single Super Phosphate) at planting or as recommended"] else []) ++
        (if lv.2.2 = "low" then ["Apply potassium fertilizer (e.g., MOP) to boost fruiting/stress tolerance"] else [])
      let recs := if recs = [] then ["Soil NPK levels are adequate; maintain balanced fertilization and monitor"] else recs
      [Fact.mk .recommendation [("fertilizer_recommendations", .vList recs)]]
  | _, _, _ => []

/-- Rule `fertilizer_npk_evaluation` (src lines 109-122): any Lab fact with
N, P and K present activates it once. -/
def fertilizer_npk_evaluation : Rule :=
  { name := "fertilizer_npk_evaluation"
    lhs := [.pat ⟨.lab, [("N", .bind "N"), ("P", .bind "P"), ("K", .bind "K")]⟩]
    test := fun _ => true
    body := fertilizer_npk_evaluation_body }

/-- Body of the crop-stage rule (src lines 126-136); it declares a
Recommendation only when the advice list is non-empty. -/
def crop_stage_specific_body (b : Binding) : List Fact :=
  match lookupB b "stage", lookupB b "N", lookupB b "P", lookupB b "K" with
  | some stage, some (.vNum n), some (.vNum p), some (.vNum k) =>
      let lv := interpret_npk n p k
      let advice :=
        (if stage = Value.vStr "vegetative" ∧ lv.1 = "low" then
          ["Increase nitrogen to support vegetative growth (split applications)"] else []) ++
        (if (stage = Value.vStr "flowering" ∨ stage = Value.vStr "fruiting") ∧ lv.2.2 = "low" then
          ["Increase potassium to support flowering/fruition"] else [])
      if advice = [] then [] else
        [Fact.mk .recommendation [("stage_advice", .vList advice)]]
  | _, _, _, _ => []

/-- Rule `crop_stage_specific` (src lines 124-136): joins a Crop and a Lab
fact. -/
def crop_stage_specific : Rule :=
  { name := "crop_stage_specific"
    lhs := [.pat ⟨.crop, [("name", .bind "name"), ("stage", .bind "stage")]⟩,
            .pat ⟨.lab, [("N", .bind "N"), ("P", .bind "P"), ("K", .bind "K")]⟩]
    test := fun _ => true
    body := crop_stage_specific_body }

/-- The `TEST` guard of the soil pH rule: the source predicate
`lambda ph: ph is not None and (ph < 5.5 or ph > 7.8)`. -/
def soil_ph_issue_test (b : Binding) : Bool :=
  match lookupB b "ph" with
  | some .vNone => false
  | some (.vNum ph) => decide (ph < mkRat 11 2) || decide (ph > mkRat 39 5)
  | _ => false

/-- Body of the soil pH rule (src lines 140-146). -/
def soil_ph_issue_body (b : Binding) : List Fact :=
  match lookupB b "ph" with
  | some (.vNum ph) =>
      let note :=
        if ph < mkRat 11 2 then
          "Soil is acidic (pH=" ++ formatFixed2 ph ++ "). Consider liming to raise pH."
        else
          "Soil is alkaline (pH=" ++ formatFixed2 ph ++ "). Consider sulfur or acidifying amendments."
      [Fact.mk .recommendation [("soil_ph_note", .vStr note)]]
  | _ => []

/-- Rule `soil_ph_issue` (src lines 138-146): requires a Soil fact with both
`type` and `ph` present, guarded by the pH extremity test. -/
def soil_ph_issue : Rule :=
  { name := "soil_ph_issue"
    lhs := [.pat ⟨.soil, [("type", .bind "stype"), ("ph", .bind "ph")]⟩]
    test := soil_ph_issue_test
    body := soil_ph_issue_body }

/-- Body of the vector warning rule. -/
def vector_warning_body (_ : Binding) : List Fact :=
  [Fact.mk .recommendation
    [("treatment", .vStr "Vectors detected: control aphids/whiteflies using IPM (neem/biocontrol/soft insecticides); use reflective mulches or yellow sticky traps")],
   Fact.mk .diagnosis
    [("disease", .vStr "High vector presence - risk of viral spread"),
     ("confidence", .vNum (mkRat 7 10))]]

/-- Rule `vector_warning` (src lines 148-152): a disjunction of two
PestPresence patterns. -/
def vector_warning : Rule :=
  { name := "vector_warning"
    lhs := [.orp [⟨.pest, [("aphids", .lit (.vBool true))]⟩,
                  ⟨.pest, [("whiteflies", .lit (.vBool true))]⟩]]
    test := fun _ => true
    body := vector_warning_body }

/-- Body of the fallback rule. -/
def no_data_body (_ : Binding) : List Fact :=
  [Fact.mk .recommendation
    [("general", .vStr "Insufficient symptom/lab data to provide a targeted recommendation. Collect more info: detailed symptoms, lab NPK, recent weather.")]]

/-- Rule `no_data` (src lines 154-157): fires only when no Diagnosis fact and
no Recommendation fact exist. -/
def no_data : Rule :=
  { name := "no_data"
    lhs := [.npat ⟨.diagnosis, []⟩, .npat ⟨.recommendation, []⟩]
    test := fun _ => true
    body := no_data_body }

/-- The rule catalog, in the declaration order of `AgriSenseEngine`. -/
def catalog : List Rule :=
  [powdery_mildew, blight_like, viral_mosaic, insect_damage_wilt,
   nitrogen_deficiency_symptom, fertilizer_npk_evaluation, crop_stage_specific,
   soil_ph_issue, vector_warning, no_data]

/-- An activation: rule index in the catalog, variable binding, and the
identities of the supporting facts. -/
structure Activation where
  ruleIdx : Nat
  binding : Binding
  support : List Nat
deriving DecidableEq, Repr

/-- Activations of a suffix of the catalog, rules indexed from `i`;
activations of one rule fire most-recent support first. -/
def actsFrom (db : List WFact) : Nat → List Rule → List Activation
  | _, [] => []
  | i, r :: rs =>
      (ruleActs db r).reverse.map (fun x => Activation.mk i x.1 x.2) ++ actsFrom db (i + 1) rs

/-- All activations of the catalog over a fact base, in the agenda's firing
order: rule declaration order first, recency within one rule. -/
def actsAll (db : List WFact) : List Activation :=
  actsFrom db 0 catalog

/-- Engine state: working memory, next fact identity, the set of already
fired activations, and the log of fired rule names in order. -/
structure EngineState where
  db : List WFact
  nextId : Nat
  fired : List Activation
  log : List String
deriving DecidableEq, Repr

/-- The state of a freshly constructed (or reset) engine. -/
def initState : EngineState := ⟨[], 0, [], []⟩

/-- `reset` clears working memory, agenda and log. -/
def reset (_ : EngineState) : EngineState := initState

/-- Declare a fact: it receives the next identity and joins working memory.
The repository's fact kinds impose no attribute requirements, so declaration
always succeeds. -/
def declare (s : EngineState) (f : Fact) : EngineState :=
  { s with db := s.db ++ [⟨s.nextId, f⟩], nextId := s.nextId + 1 }

/-- Declare a list of facts in order. -/
def declareFacts (s : EngineState) (fs : List Fact) : EngineState :=
  fs.foldl declare s

/-- The agenda: activations of the current fact base that have not fired. -/
def eligible (s : EngineState) : List Activation :=
  (actsAll s.db).filter (fun a => decide (a ∉ s.fired))

/-- Fire one activation: declare the body's facts, mark the activation fired,
log the rule name. -/
def fireAct (s : EngineState) (a : Activation) : EngineState :=
  match catalog[a.ruleIdx]? with
  | none => s
  | some r =>
      let s2 := declareFacts s (r.body a.binding)
      { s2 with fired := s2.fired ++ [a], log := s2.log ++ [r.name] }

/-- The run loop with explicit fuel: fire the highest-ordered eligible
activation until the agenda is empty. -/
def runFuel : Nat → EngineState → EngineState
  | 0, s => s
  | n + 1, s =>
      match eligible s with
      | [] => s
      | a :: _ => runFuel n (fireAct s a)

/-- Fuel that always suffices: one more than the number of activations the
current fact base produces (rule firings only add Diagnosis/Recommendation
facts, which no positive pattern in the catalog observes). -/
def fuelBound (s : EngineState) : Nat := (actsAll s.db).length + 1

/-- `run`: execute the match-select-fire loop to quiescence. -/
def run (s : EngineState) : EngineState := runFuel (fuelBound s) s

/-- Reset, declare the given facts, run: one advisory session. -/
def execute (fs : List Fact) : EngineState := run (declareFacts initState fs)

/-- Source `get_results`: the Diagnosis facts and the Recommendation facts of
working memory. -/
def get_results (s : EngineState) : List Fact × List Fact :=
  (s.db.filterMap (fun w => if w.fact.kind = .diagnosis then some w.fact else none),
   s.db.filterMap (fun w => if w.fact.kind = .recommendation then some w.fact else none))

/-! ### Matcher lemmas -/

lemma mem_matchPattern {db : List WFact} {p : Pattern} {b : Binding} {x : Binding × Nat}
    (hx : x ∈ matchPattern db p b) :
    ∃ w ∈ db, w.fact.kind = p.kind ∧ matchFact p b w.fact = some x.1 ∧ x.2 = w.fid := by
  unfold matchPattern at hx
  rcases List.mem_filterMap.1 hx with ⟨w, hw, hfw⟩
  by_cases hk : w.fact.kind = p.kind
  · rw [if_pos hk, Option.map_eq_some'] at hfw
    rcases hfw with ⟨b2, hb2, hbx⟩
    exact ⟨w, hw, hk, by rw [hb2, ← hbx], by rw [← hbx]⟩
  · rw [if_neg hk] at hfw
    exact absurd hfw (by simp)

lemma matchPattern_append (db1 db2 : List WFact) (p : Pattern) (b : Binding) :
    matchPattern (db1 ++ db2) p b = matchPattern db1 p b ++ matchPattern db2 p b := by
  simp [matchPattern, List.filterMap_append]

lemma matchPattern_nil_of_kinds {db : List WFact} {p : Pattern} (b : Binding)
    (h : ∀ w ∈ db, w.fact.kind ≠ p.kind) : matchPattern db p b = [] := by
  unfold matchPattern
  rw [List.filterMap_eq_nil_iff]
  intro w hw
  rw [if_neg (h w hw)]

lemma foldlM_constraints_requires (f : Fact) :
    ∀ (cs : List (String × Constraint)) (b b2 : Binding),
      cs.foldlM
        (fun acc ac =>
          match f.get ac.1 with
          | none => none
          | some v => applyConstraint acc ac.2 v) b = some b2 →
      ∀ ac ∈ cs, ∃ v, f.get ac.1 = some v := by
  intro cs
  induction cs with
  | nil => intro b b2 _ ac hac; exact absurd hac (by simp)
  | cons hd tl ih =>
      intro b b2 h ac hac
      rw [List.foldlM_cons] at h
      rcases hget : f.get hd.1 with _ | v
      · simp [hget] at h
      · simp only [hget] at h
        rcases happ : applyConstraint b hd.2 v with _ | b3
        · simp [happ] at h
        · simp only [happ, Option.some_bind] at h
          rcases List.mem_cons.1 hac with hac | hac
          · exact ⟨v, hac ▸ hget⟩
          · exact ih b3 b2 h ac hac

lemma matchFact_requires {p : Pattern} {b : Binding} {f : Fact} {b2 : Binding}
    (h : matchFact p b f = some b2) :
    ∀ ac ∈ p.constraints, ∃ v, f.get ac.1 = some v :=
  foldlM_constraints_requires f p.constraints b b2 h

/-- A pattern constraining an attribute never matches a fact on which that
attribute is absent. -/
lemma matchFact_absent {p : Pattern} {b : Binding} {f : Fact} {a : String} {c : Constraint}
    (hc : (a, c) ∈ p.constraints) (ha : f.get a = none) : matchFact p b f = none := by
  rcases h : matchFact p b f with _ | b2
  · rfl
  · rcases matchFact_requires h (a, c) hc with ⟨v, hv⟩
    rw [ha] at hv
    exact absurd hv (by simp)

/-- Appending facts of kinds a condition does not observe leaves its matches
unchanged. -/
lemma matchCond_append_of {e : List WFact} (db : List WFact) (c : Cond) (b : Binding)
    (h : ∀ w ∈ e, w.fact.kind ∉ c.kinds) :
    matchCond (db ++ e) c b = matchCond db c b := by
  have hnil : ∀ p : Pattern, p.kind ∈ c.kinds → matchPattern e p b = [] := by
    intro p hp
    exact matchPattern_nil_of_kinds b (fun w hw hk => h w hw (hk ▸ hp))
  cases c with
  | pat p =>
      rw [matchCond, matchCond, matchPattern_append,
        hnil p (by simp [Cond.kinds]), List.append_nil]
  | npat p =>
      rw [matchCond, matchCond, matchPattern_append,
        hnil p (by simp [Cond.kinds]), List.append_nil]
  | orp ps =>
      rw [matchCond, matchCond]
      have : ps.map (fun p => matchPattern (db ++ e) p b) =
          ps.map (fun p => matchPattern db p b) := by
        apply List.map_congr_left
        intro p hp
        rw [matchPattern_append, hnil p (by simp [Cond.kinds]; exact ⟨p, hp, rfl⟩),
          List.append_nil]
      rw [this]

lemma foldl_extendStep_congr {db1 db2 : List WFact} :
    ∀ (cs : List Cond) (acc : List (Binding × List Nat)),
      (∀ c ∈ cs, ∀ b, matchCond db1 c b = matchCond db2 c b) →
      cs.foldl (extendStep db1) acc = cs.foldl (extendStep db2) acc := by
  intro cs
  induction cs with
  | nil => intro acc _; rfl
  | cons hd tl ih =>
      intro acc h
      rw [List.foldl_cons, List.foldl_cons]
      have heq : extendStep db1 acc hd = extendStep db2 acc hd := by
        unfold extendStep
        congr 1
        funext x
        rw [h hd (by simp) x.1]
      rw [heq]
      exact ih _ (fun c hc b => h c (by simp [hc]) b)

lemma matchConds_append_of {e : List WFact} (db : List WFact) (cs : List Cond)
    (h : ∀ c ∈ cs, ∀ w ∈ e, w.fact.kind ∉ c.kinds) :
    matchConds (db ++ e) cs = matchConds db cs :=
  foldl_extendStep_congr cs _ (fun c hc b => matchCond_append_of db c b (h c hc))

/-- Appending facts of kinds a rule does not observe leaves its activations
unchanged. -/
lemma ruleActs_append_of {e : List WFact} (db : List WFact) (r : Rule)
    (h : ∀ c ∈ r.lhs, ∀ w ∈ e, w.fact.kind ∉ c.kinds) :
    ruleActs (db ++ e) r = ruleActs db r := by
  unfold ruleActs
  rw [matchConds_append_of db r.lhs h]

/-- The fallback rule has exactly one activation (the empty binding with no
support) when no Diagnosis and no Recommendation fact exists, else none. -/
lemma ruleActs_no_data (db : List WFact) :
    ruleActs db no_data =
      if matchPattern db ⟨.diagnosis, []⟩ [] = [] ∧ matchPattern db ⟨.recommendation, []⟩ [] = []
      then [([], [])] else [] := by
  by_cases h1 : matchPattern db ⟨.diagnosis, []⟩ ([] : Binding) = []
  · by_cases h2 : matchPattern db ⟨.recommendation, []⟩ ([] : Binding) = []
    · simp [ruleActs, no_data, matchConds, extendStep, matchCond, h1, h2]
    · simp [ruleActs, no_data, matchConds, extendStep, matchCond, h1, h2]
  · simp [ruleActs, no_data, matchConds, extendStep, matchCond, h1]

lemma matchPattern_nil_of_append {db e : List WFact} {p : Pattern} {b : Binding}
    (h : matchPattern (db ++ e) p b = []) : matchPattern db p b = [] := by
  rw [matchPattern_append] at h
  exact (List.append_eq_nil.1 h).1

/-! ### Activation lemmas -/

lemma mem_actsFrom {db : List WFact} :
    ∀ (rs : List Rule) (i : Nat) (a : Activation),
      a ∈ actsFrom db i rs ↔
        ∃ j r, rs[j]? = some r ∧ a.ruleIdx = i + j ∧
          (a.binding, a.support) ∈ ruleActs db r := by
  intro rs
  induction rs with
  | nil => intro i a; simp [actsFrom]
  | cons hd tl ih =>
      intro i a
      simp only [actsFrom, List.mem_append, List.mem_map, List.mem_reverse, ih]
      constructor
      · rintro (⟨x, hx, rfl⟩ | ⟨j, r, hj, hidx, hx⟩)
        · exact ⟨0, hd, by simp, by simp, hx⟩
        · exact ⟨j + 1, r, by simpa using hj, by omega, hx⟩
      · rintro ⟨j, r, hj, hidx, hx⟩
        cases j with
        | zero =>
            left
            have hr : hd = r := by simpa using hj
            subst hr
            refine ⟨(a.binding, a.support), hx, ?_⟩
            have hi : i = a.ruleIdx := by omega
            rw [hi]
        | succ j =>
            right
            exact ⟨j, r, by simpa using hj, by omega, hx⟩

lemma mem_actsAll {db : List WFact} {a : Activation} :
    a ∈ actsAll db ↔
      ∃ r, catalog[a.ruleIdx]? = some r ∧ (a.binding, a.support) ∈ ruleActs db r := by
  rw [actsAll, mem_actsFrom]
  constructor
  · rintro ⟨j, r, hj, hidx, hx⟩
    exact ⟨r, by rwa [hidx, Nat.zero_add], hx⟩
  · rintro ⟨r, hr, hx⟩
    exact ⟨a.ruleIdx, r, hr, by omega, hx⟩

/-- Every rule of the catalog other than the fallback observes only the six
input fact kinds, never Diagnosis or Recommendation. -/
lemma catalog_kinds : ∀ (i : Nat) (r : Rule), catalog[i]? = some r → i ≠ 9 →
    ∀ c ∈ r.lhs, ∀ k ∈ c.kinds, k ≠ .diagnosis ∧ k ≠ .recommendation := by
  intro i r h hi9
  rcases i with _|_|_|_|_|_|_|_|_|_|i
  · rw [show r = powdery_mildew by simpa [catalog] using h.symm]; decide
  · rw [show r = blight_like by simpa [catalog] using h.symm]; decide
  · rw [show r = viral_mosaic by simpa [catalog] using h.symm]; decide
  · rw [show r = insect_damage_wilt by simpa [catalog] using h.symm]; decide
  · rw [show r = nitrogen_deficiency_symptom by simpa [catalog] using h.symm]; decide
  · rw [show r = fertilizer_npk_evaluation by simpa [catalog] using h.symm]; decide
  · rw [show r = crop_stage_specific by simpa [catalog] using h.symm]; decide
  · rw [show r = soil_ph_issue by simpa [catalog] using h.symm]; decide
  · rw [show r = vector_warning by simpa [catalog] using h.symm]; decide
  · exact absurd rfl hi9
  · simp [catalog] at h

lemma mem_ite_nil_singleton {α : Type} {c : Prop} [Decidable c] {x f : α}
    (hf : f ∈ (if c then ([] : List α) else [x])) : f = x := by
  split at hf
  · simp at hf
  · simpa using hf

lemma ite_nil_singleton_spec {α : Type} {c : Prop} [Decidable c] {x : α} (P : α → Prop)
    (hx : P x) :
    (if c then ([] : List α) else [x]) = [] ∨
      ∃ f ∈ (if c then ([] : List α) else [x]), P f := by
  split
  · exact Or.inl rfl
  · exact Or.inr ⟨x, by simp, hx⟩

/-- The facts any catalog rule body declares are Diagnosis or Recommendation
facts, and a non-empty body always declares a Recommendation fact. -/
lemma body_spec : ∀ (i : Nat) (r : Rule), catalog[i]? = some r → ∀ b : Binding,
    (∀ f ∈ r.body b, f.kind = .diagnosis ∨ f.kind = .recommendation) ∧
    (r.body b = [] ∨ ∃ f ∈ r.body b, f.kind = .recommendation) := by
  intro i r h b
  rcases i with _|_|_|_|_|_|_|_|_|_|i
  · rw [show r = powdery_mildew by simpa [catalog] using h.symm]
    constructor
    · intro f hf
      simp only [powdery_mildew, powdery_mildew_body, List.mem_cons, List.mem_singleton,
        List.not_mem_nil, or_false] at hf
      rcases hf with hf | hf <;> simp [hf]
    · right
      simp [powdery_mildew, powdery_mildew_body]
  · rw [show r = blight_like by simpa [catalog] using h.symm]
    constructor
    · intro f hf
      simp only [blight_like, blight_like_body, List.mem_cons, List.mem_singleton,
        List.not_mem_nil, or_false] at hf
      rcases hf with hf | hf <;> simp [hf]
    · right
      simp [blight_like, blight_like_body]
  · rw [show r = viral_mosaic by simpa [catalog] using h.symm]
    constructor
    · intro f hf
      simp only [viral_mosaic, viral_mosaic_body, List.mem_cons, List.mem_singleton,
        List.not_mem_nil, or_false] at hf
      rcases hf with hf | hf <;> simp [hf]
    · right
      simp [viral_mosaic, viral_mosaic_body]
  · rw [show r = insect_damage_wilt by simpa [catalog] using h.symm]
    constructor
    · intro f hf
      simp only [insect_damage_wilt, insect_damage_wilt_body, List.mem_cons, List.mem_singleton,
        List.not_mem_nil, or_false] at hf
      rcases hf with hf | hf <;> simp [hf]
    · right
      simp [insect_damage_wilt, insect_damage_wilt_body]
  · rw [show r = nitrogen_deficiency_symptom by simpa [catalog] using h.symm]
    constructor
    · intro f hf
      simp only [nitrogen_deficiency_symptom, nitrogen_deficiency_symptom_body, List.mem_cons,
        List.mem_singleton, List.not_mem_nil, or_false] at hf
      rcases hf with hf | hf <;> simp [hf]
    · right
      simp [nitrogen_deficiency_symptom, nitrogen_deficiency_symptom_body]
  · rw [show r = fertilizer_npk_evaluation by simpa [catalog] using h.symm]
    constructor
    · intro f hf
      simp only [fertilizer_npk_evaluation, fertilizer_npk_evaluation_body] at hf
      split at hf
      · simp at hf; simp [hf]
      · simp at hf
    · simp only [fertilizer_npk_evaluation, fertilizer_npk_evaluation_body]
      split
      · right; simp
      · left; rfl
  · rw [show r = crop_stage_specific by simpa [catalog] using h.symm]
    constructor
    · intro f hf
      simp only [crop_stage_specific, crop_stage_specific_body] at hf
      split at hf
      · right
        rw [mem_ite_nil_singleton hf]
      · simp at hf
    · simp only [crop_stage_specific, crop_stage_specific_body]
      split
      · exact ite_nil_singleton_spec _ rfl
      · exact Or.inl rfl
  · rw [show r = soil_ph_issue by simpa [catalog] using h.symm]
    constructor
    · intro f hf
      simp only [soil_ph_issue, soil_ph_issue_body] at hf
      split at hf
      · simp at hf; simp [hf]
      · simp at hf
    · simp only [soil_ph_issue, soil_ph_issue_body]
      split
      · right; simp
      · left; rfl
  · rw [show r = vector_warning by simpa [catalog] using h.symm]
    constructor
    · intro f hf
      simp only [vector_warning, vector_warning_body, List.mem_cons, List.mem_singleton,
        List.not_mem_nil, or_false] at hf
      rcases hf with hf | hf <;> simp [hf]
    · right
      simp [vector_warning, vector_warning_body]
  · rw [show r = no_data by simpa [catalog] using h.symm]
    constructor
    · intro f hf
      simp only [no_data, no_data_body, List.mem_singleton] at hf
      simp [hf]
    · right
      simp [no_data, no_data_body]
  · simp [catalog] at h

/-! ### Engine run lemmas -/

/-- `t` extends `s`: same working memory plus newly declared
Diagnosis/Recommendation facts.  This is the run-loop invariant: rule bodies
declare only output facts. -/
def Ext (s t : EngineState) : Prop :=
  ∃ e, t.db = s.db ++ e ∧
    ∀ w ∈ e, w.fact.kind = .diagnosis ∨ w.fact.kind = .recommendation

lemma ext_refl (s : EngineState) : Ext s s := ⟨[], by simp, by simp⟩

lemma declareFacts_db (s : EngineState) (fs : List Fact) :
    ∃ e, (declareFacts s fs).db = s.db ++ e ∧ e.map WFact.fact = fs := by
  induction fs generalizing s with
  | nil => exact ⟨[], by simp [declareFacts], rfl⟩
  | cons hd tl ih =>
      rcases ih (declare s hd) with ⟨e, he, hmap⟩
      refine ⟨⟨s.nextId, hd⟩ :: e, ?_, by simp [hmap]⟩
      rw [show declareFacts s (hd :: tl) = declareFacts (declare s hd) tl from rfl, he]
      simp [declare]

lemma declareFacts_fired (s : EngineState) (fs : List Fact) :
    (declareFacts s fs).fired = s.fired ∧ (declareFacts s fs).log = s.log := by
  induction fs generalizing s with
  | nil => exact ⟨rfl, rfl⟩
  | cons hd tl ih =>
      simpa [show declareFacts s (hd :: tl) = declareFacts (declare s hd) tl from rfl,
        declare] using ih (declare s hd)

lemma mem_eligible {s : EngineState} {a : Activation} (ha : a ∈ eligible s) :
    a ∈ actsAll s.db ∧ a ∉ s.fired := by
  rcases List.mem_filter.1 ha with ⟨h1, h2⟩
  exact ⟨h1, by simpa using h2⟩

lemma fireAct_spec {s : EngineState} {a : Activation} {r : Rule}
    (hr : catalog[a.ruleIdx]? = some r) :
    (fireAct s a).fired = s.fired ++ [a] ∧
    (fireAct s a).log = s.log ++ [r.name] ∧
    ∃ e, (fireAct s a).db = s.db ++ e ∧ e.map WFact.fact = r.body a.binding := by
  unfold fireAct
  rw [hr]
  rcases declareFacts_db s (r.body a.binding) with ⟨e, he, hmap⟩
  rcases declareFacts_fired s (r.body a.binding) with ⟨hf, hl⟩
  exact ⟨by simp [hf], by simp [hl], e, by simpa using he, hmap⟩

lemma fireAct_ext {s t : EngineState} {a : Activation} (hx : Ext s t)
    (ha : a ∈ actsAll t.db) : Ext s (fireAct t a) := by
  rcases mem_actsAll.1 ha with ⟨r, hr, _⟩
  rcases fireAct_spec (s := t) hr with ⟨_, _, e2, he2, hmap⟩
  rcases hx with ⟨e, he, hk⟩
  refine ⟨e ++ e2, by rw [he2, he, List.append_assoc], ?_⟩
  intro w hw
  rcases List.mem_append.1 hw with hw | hw
  · exact hk w hw
  · have hwf : w.fact ∈ r.body a.binding := by
      rw [← hmap]; exact List.mem_map_of_mem _ hw
    exact (body_spec a.ruleIdx r hr a.binding).1 w.fact hwf

/-- Every activation eligible in an extension of `s` is already an activation
over the fact base of `s`: new Diagnosis/Recommendation facts unlock no rule,
and the fallback's negations only ever switch off. -/
lemma eligible_sub {s t : EngineState} (hx : Ext s t) {a : Activation}
    (ha : a ∈ eligible t) : a ∈ actsAll s.db ∧ a ∉ t.fired := by
  rcases mem_eligible ha with ⟨hmem, hnf⟩
  refine ⟨?_, hnf⟩
  rcases mem_actsAll.1 hmem with ⟨r, hr, hpr⟩
  rcases hx with ⟨e, he, hk⟩
  by_cases h9 : a.ruleIdx = 9
  · have hr9 : r = no_data := by
      rw [h9] at hr
      simpa [catalog] using hr.symm
    subst hr9
    rw [he, ruleActs_no_data] at hpr
    by_cases hc : matchPattern (s.db ++ e) ⟨.diagnosis, []⟩ [] = [] ∧
        matchPattern (s.db ++ e) ⟨.recommendation, []⟩ [] = []
    · rw [if_pos hc] at hpr
      have hpr2 : (a.binding, a.support) = (([] : Binding), ([] : List Nat)) := by
        simpa using hpr
      apply mem_actsAll.2
      refine ⟨no_data, by rw [h9]; rfl, ?_⟩
      rw [ruleActs_no_data,
        if_pos ⟨matchPattern_nil_of_append hc.1, matchPattern_nil_of_append hc.2⟩]
      simp [hpr2]
    · rw [if_neg hc] at hpr
      exact absurd hpr (by simp)
  · have hkinds := catalog_kinds a.ruleIdx r hr h9
    have hdisj : ∀ c ∈ r.lhs, ∀ w ∈ e, w.fact.kind ∉ c.kinds := by
      intro c hc w hw hkin
      rcases hkinds c hc _ hkin with ⟨hd2, hr2⟩
      rcases hk w hw with hkd | hkd
      · exact hd2 hkd
      · exact hr2 hkd
    rw [he, ruleActs_append_of s.db r hdisj] at hpr
    exact mem_actsAll.2 ⟨r, hr, hpr⟩

lemma length_filter_lt {α : Type} [DecidableEq α] :
    ∀ (l fd : List α) (a : α), a ∈ l → a ∉ fd →
      (l.filter (fun x => decide (x ∉ fd ++ [a]))).length <
        (l.filter (fun x => decide (x ∉ fd))).length := by
  intro l
  induction l with
  | nil => intro fd a ha _; exact absurd ha (by simp)
  | cons hd tl ih =>
      intro fd a ha hnfd
      have hsub : (tl.filter (fun x => decide (x ∉ fd ++ [a]))).length ≤
          (tl.filter (fun x => decide (x ∉ fd))).length := by
        apply List.Sublist.length_le
        apply List.monotone_filter_right
        intro x hx
        simp only [decide_eq_true_eq, List.mem_append, List.mem_singleton] at hx ⊢
        exact fun hmem => hx (Or.inl hmem)
      rcases List.mem_cons.1 ha with heq | hatl
      · subst heq
        rw [List.filter_cons, List.filter_cons,
          show (decide (a ∉ fd ++ [a])) = false by simp,
          show (decide (a ∉ fd)) = true by simpa using hnfd]
        simpa using Nat.lt_succ_of_le hsub
      · have hlt := ih fd a hatl hnfd
        rw [List.filter_cons, List.filter_cons]
        by_cases h1 : hd ∉ fd ++ [a]
        · have h2 : hd ∉ fd := fun hm => h1 (by simp [hm])
          rw [show (decide (hd ∉ fd ++ [a])) = true by simpa using h1,
            show (decide (hd ∉ fd)) = true by simpa using h2]
          simpa using Nat.succ_lt_succ hlt
        · rw [show (decide (hd ∉ fd ++ [a])) = false by simpa using h1]
          by_cases h2 : hd ∉ fd
          · rw [show (decide (hd ∉ fd)) = true by simpa using h2]
            simpa using Nat.lt_succ_of_lt hlt
          · rw [show (decide (hd ∉ fd)) = false by simpa using h2]
            simpa using hlt

lemma runFuel_succ_nil {s : EngineState} (h : eligible s = []) (n : Nat) :
    runFuel (n + 1) s = s := by
  rw [runFuel, h]

lemma runFuel_succ_cons {s : EngineState} {a : Activation} {rest : List Activation}
    (h : eligible s = a :: rest) (n : Nat) :
    runFuel (n + 1) s = runFuel n (fireAct s a) := by
  rw [runFuel, h]

/-- Within the fuel bound, the loop empties the agenda: each firing removes
one unfired activation from the finite set determined by the starting fact
base. -/
lemma runFuel_quiescent : ∀ (n : Nat) (s t : EngineState), Ext s t →
    ((actsAll s.db).filter (fun x => decide (x ∉ t.fired))).length ≤ n →
    eligible (runFuel n t) = [] ∧ Ext s (runFuel n t) := by
  intro n
  induction n with
  | zero =>
      intro s t hx hlen
      refine ⟨?_, hx⟩
      rcases h : eligible t with _ | ⟨a, rest⟩
      · exact h
      · exfalso
        have ha := eligible_sub hx (h ▸ List.mem_cons_self a rest)
        have hmem : a ∈ (actsAll s.db).filter (fun x => decide (x ∉ t.fired)) :=
          List.mem_filter.2 ⟨ha.1, by simpa using ha.2⟩
        have := List.length_pos_of_mem hmem
        omega
  | succ n ih =>
      intro s t hx hlen
      rcases h : eligible t with _ | ⟨a, rest⟩
      · rw [runFuel_succ_nil h]
        exact ⟨h, hx⟩
      · rw [runFuel_succ_cons h]
        have ha := eligible_sub hx (h ▸ List.mem_cons_self a rest)
        have hmemT : a ∈ actsAll t.db := (mem_eligible (h ▸ List.mem_cons_self a rest)).1
        rcases mem_actsAll.1 hmemT with ⟨r, hr, _⟩
        have hfired : (fireAct t a).fired = t.fired ++ [a] := (fireAct_spec hr).1
        apply ih s (fireAct t a) (fireAct_ext hx hmemT)
        rw [hfired]
        have := length_filter_lt (actsAll s.db) t.fired a ha.1 ha.2
        omega

/-- `run` always reaches quiescence. -/
lemma eligible_run (s : EngineState) : eligible (run s) = [] := by
  have h := runFuel_quiescent (fuelBound s) s s (ext_refl s) ?_
  · exact h.1
  · have := List.length_filter_le (fun x => decide (x ∉ s.fired)) (actsAll s.db)
    rw [fuelBound]
    omega

lemma run_ext (s : EngineState) : Ext s (run s) := by
  have h := runFuel_quiescent (fuelBound s) s s (ext_refl s) ?_
  · exact h.2
  · have := List.length_filter_le (fun x => decide (x ∉ s.fired)) (actsAll s.db)
    rw [fuelBound]
    omega

/-- Running a quiescent engine is a no-op for any amount of fuel. -/
lemma runFuel_of_quiescent {s : EngineState} (h : eligible s = []) :
    ∀ n, runFuel n s = s
  | 0 => rfl
  | n + 1 => runFuel_succ_nil h n

lemma run_of_quiescent {s : EngineState} (h : eligible s = []) : run s = s :=
  runFuel_of_quiescent h _

/-- Every rule name in the log after a run either was already logged or names
a rule with an activation over the starting fact base. -/
lemma runFuel_log : ∀ (n : Nat) (s t : EngineState), Ext s t →
    ∀ nm, nm ∈ (runFuel n t).log → nm ∈ t.log ∨
      ∃ a r, a ∈ actsAll s.db ∧ catalog[a.ruleIdx]? = some r ∧ r.name = nm := by
  intro n
  induction n with
  | zero => intro s t _ nm h; exact Or.inl h
  | succ n ih =>
      intro s t hx nm hnm
      rcases h : eligible t with _ | ⟨a, rest⟩
      · rw [runFuel_succ_nil h] at hnm
        exact Or.inl hnm
      · rw [runFuel_succ_cons h] at hnm
        have hmem := mem_eligible (h ▸ List.mem_cons_self a rest)
        have hsub := eligible_sub hx (h ▸ List.mem_cons_self a rest)
        rcases mem_actsAll.1 hmem.1 with ⟨r, hr, _⟩
        have hlog : (fireAct t a).log = t.log ++ [r.name] := (fireAct_spec hr).2.1
        rcases ih s (fireAct t a) (fireAct_ext hx hmem.1) nm hnm with hin | hex
        · rw [hlog] at hin
          rcases List.mem_append.1 hin with hin | hin
          · exact Or.inl hin
          · refine Or.inr ⟨a, r, hsub.1, hr, ?_⟩
            simp only [List.mem_singleton] at hin
            exact hin.symm
        · exact Or.inr hex

/-! ### Fallback and output helpers -/

/-- The unique activation the fallback rule can ever produce. -/
def noDataAct : Activation := ⟨9, [], []⟩

lemma noDataAct_mem {db : List WFact}
    (h1 : matchPattern db ⟨.diagnosis, []⟩ [] = [])
    (h2 : matchPattern db ⟨.recommendation, []⟩ [] = []) :
    noDataAct ∈ actsAll db := by
  apply mem_actsAll.2
  refine ⟨no_data, rfl, ?_⟩
  rw [ruleActs_no_data, if_pos ⟨h1, h2⟩]
  simp [noDataAct]

lemma exists_kind_of_matchPattern_ne {db : List WFact} {p : Pattern}
    (h : matchPattern db p [] ≠ []) : ∃ w ∈ db, w.fact.kind = p.kind := by
  rcases List.exists_mem_of_ne_nil _ h with ⟨x, hx⟩
  rcases mem_matchPattern hx with ⟨w, hw, hk, _, _⟩
  exact ⟨w, hw, hk⟩

lemma matchPattern_ne_of_kind {db : List WFact} {w : WFact} (hw : w ∈ db) {k : FactKind}
    (hk : w.fact.kind = k) : matchPattern db ⟨k, []⟩ [] ≠ [] := by
  have hmem : (([] : Binding), w.fid) ∈ matchPattern db ⟨k, []⟩ [] := by
    unfold matchPattern
    apply List.mem_filterMap.2
    exact ⟨w, hw, by simp [hk, matchFact]⟩
  intro h
  rw [h] at hmem
  exact absurd hmem (by simp)

/-- Invariant for the guaranteed-output argument: once the fallback has fired
a Recommendation exists, and every Diagnosis fact in working memory is either
initial or accompanied by a Recommendation (each rule body declaring a
Diagnosis also declares a Recommendation). -/
def Inv9 (s0 t : EngineState) : Prop :=
  Ext s0 t ∧
  (noDataAct ∈ t.fired → ∃ w ∈ t.db, w.fact.kind = .recommendation) ∧
  (∀ w ∈ t.db, w.fact.kind = .diagnosis →
    w ∈ s0.db ∨ ∃ w2 ∈ t.db, w2.fact.kind = .recommendation)

lemma fireAct_inv9 {s0 t : EngineState} {a : Activation} (hi : Inv9 s0 t)
    (ha : a ∈ actsAll t.db) : Inv9 s0 (fireAct t a) := by
  rcases mem_actsAll.1 ha with ⟨r, hr, hpr⟩
  rcases fireAct_spec (s := t) hr with ⟨hf, hl, e2, he2, hmap⟩
  rcases hi with ⟨hx, hnd, hdiag⟩
  have hbodymem : ∀ f ∈ r.body a.binding, ∃ w ∈ (fireAct t a).db, w.fact = f := by
    intro f hfm
    rw [← hmap] at hfm
    rcases List.mem_map.1 hfm with ⟨w, hw, hwf⟩
    exact ⟨w, by rw [he2]; exact List.mem_append_right _ hw, hwf⟩
  refine ⟨fireAct_ext hx ha, ?_, ?_⟩
  · intro hin
    rw [hf] at hin
    rcases List.mem_append.1 hin with hin | hin
    · rcases hnd hin with ⟨w, hw, hwk⟩
      exact ⟨w, by rw [he2]; exact List.mem_append_left _ hw, hwk⟩
    · rcases (body_spec a.ruleIdx r hr a.binding).2 with hnil | ⟨f, hfmem, hfk⟩
      · exfalso
        have haeq : a = noDataAct := by
          have := hin
          simp only [List.mem_singleton] at this
          exact this.symm
        have hr9 : r = no_data := by
          rw [haeq] at hr
          simpa [noDataAct, catalog] using hr.symm
        rw [hr9] at hnil
        simp [no_data, no_data_body] at hnil
      · rcases hbodymem f hfmem with ⟨w, hw, hwf⟩
        exact ⟨w, hw, by rw [hwf]; exact hfk⟩
  · intro w hw hwk
    rw [he2] at hw
    rcases List.mem_append.1 hw with hw | hw
    · rcases hdiag w hw hwk with hin | ⟨w2, hw2, hw2k⟩
      · exact Or.inl hin
      · exact Or.inr ⟨w2, by rw [he2]; exact List.mem_append_left _ hw2, hw2k⟩
    · right
      rcases (body_spec a.ruleIdx r hr a.binding).2 with hnil | ⟨f, hfmem, hfk⟩
      · exfalso
        rw [hnil] at hmap
        have he2nil : e2 = [] := by simpa using hmap
        rw [he2nil] at hw
        exact absurd hw (by simp)
      · rcases hbodymem f hfmem with ⟨w2, hw2, hw2f⟩
        exact ⟨w2, hw2, by rw [hw2f]; exact hfk⟩

lemma runFuel_inv9 : ∀ (n : Nat) (s0 t : EngineState), Inv9 s0 t →
    Inv9 s0 (runFuel n t) := by
  intro n
  induction n with
  | zero => intro s0 t h; exact h
  | succ n ih =>
      intro s0 t h
      rcases he : eligible t with _ | ⟨a, rest⟩
      · rw [runFuel_succ_nil he]
        exact h
      · rw [runFuel_succ_cons he]
        exact ih s0 _ (fireAct_inv9 h (mem_eligible (he ▸ List.mem_cons_self a rest)).1)

/-- Which catalog index carries which rule name. -/
lemma rule_name_determines_index :
    ∀ (i : Nat) (r : Rule), catalog[i]? = some r →
      (i, r.name) ∈ [(0, "powdery_mildew"), (1, "blight_like"), (2, "viral_mosaic"),
        (3, "insect_damage_wilt"), (4, "nitrogen_deficiency_symptom"),
        (5, "fertilizer_npk_evaluation"), (6, "crop_stage_specific"),
        (7, "soil_ph_issue"), (8, "vector_warning"), (9, "no_data")] := by
  intro i r h
  rcases i with _|_|_|_|_|_|_|_|_|_|i
  · rw [show r = powdery_mildew by simpa [catalog] using h.symm]; decide
  · rw [show r = blight_like by simpa [catalog] using h.symm]; decide
  · rw [show r = viral_mosaic by simpa [catalog] using h.symm]; decide
  · rw [show r = insect_damage_wilt by simpa [catalog] using h.symm]; decide
  · rw [show r = nitrogen_deficiency_symptom by simpa [catalog] using h.symm]; decide
  · rw [show r = fertilizer_npk_evaluation by simpa [catalog] using h.symm]; decide
  · rw [show r = crop_stage_specific by simpa [catalog] using h.symm]; decide
  · rw [show r = soil_ph_issue by simpa [catalog] using h.symm]; decide
  · rw [show r = vector_warning by simpa [catalog] using h.symm]; decide
  · rw [show r = no_data by simpa [catalog] using h.symm]; decide
  · simp [catalog] at h

/-- A name in the log of a fresh run names a rule with an activation over the
initially declared facts. -/
lemma log_name_source {fs : List Fact} {nm : String}
    (h : nm ∈ (execute fs).log) :
    ∃ a r, a ∈ actsAll (declareFacts initState fs).db ∧
      catalog[a.ruleIdx]? = some r ∧ r.name = nm := by
  have h2 : nm ∈ (runFuel (fuelBound (declareFacts initState fs))
      (declareFacts initState fs)).log := h
  have hlog0 : (declareFacts initState fs).log = [] :=
    (declareFacts_fired initState fs).2
  rcases runFuel_log (fuelBound (declareFacts initState fs)) _ _ (ext_refl _) nm h2 with
    hin | hex
  · rw [hlog0] at hin
    exact absurd hin (by simp)
  · exact hex

lemma matchConds_single_pat {db : List WFact} {p : Pattern} {x : Binding × List Nat}
    (hx : x ∈ matchConds db [Cond.pat p]) :
    ∃ y ∈ matchPattern db p [], x = (y.1, [y.2]) := by
  simp only [matchConds, List.foldl_cons, List.foldl_nil, extendStep,
    List.flatMap_cons, List.flatMap_nil, List.append_nil, matchCond,
    List.map_map, List.nil_append] at hx
  rcases List.mem_map.1 hx with ⟨y, hy, hxy⟩
  exact ⟨y, hy, by rw [← hxy]; rfl⟩

/-! ### Claim theorems -/

/-- C1 counterexample: declaring only `Symptoms(mosaic=True)` declares no
Diagnosis and no Recommendation fact, yet running fires exactly
`viral_mosaic` (which immediately declares a Diagnosis, suppressing the
fallback), not the fallback rule `no_data`. -/
theorem c1_counterexample :
    (∀ f ∈ [Fact.mk .symptoms [("mosaic", .vBool true)]],
        f.kind ≠ .diagnosis ∧ f.kind ≠ .recommendation) ∧
    (execute [Fact.mk .symptoms [("mosaic", .vBool true)]]).log = ["viral_mosaic"] ∧
    (execute [Fact.mk .symptoms [("mosaic", .vBool true)]]).log ≠ ["no_data"] := by
  exact ⟨by decide, by decide, by decide⟩

/-- C1 (amended): with an empty initial fact set the run fires exactly the
fallback rule `no_data` and declares a single Recommendation whose `general`
attribute starts with "Insufficient"; and for every initial fact set that
contains a Diagnosis fact, the fallback rule never fires. -/
theorem c1_no_data_fallback :
    ((execute []).log = ["no_data"] ∧
     (execute []).db.map WFact.fact =
       [Fact.mk .recommendation [("general", .vStr "Insufficient symptom/lab data to provide a targeted recommendation. Collect more info: detailed symptoms, lab NPK, recent weather.")]] ∧
     ("Insufficient symptom/lab data to provide a targeted recommendation. Collect more info: detailed symptoms, lab NPK, recent weather.".data.take 12 = "Insufficient".data)) ∧
    (∀ fs : List Fact, (∃ f ∈ fs, f.kind = .diagnosis) →
      "no_data" ∉ (execute fs).log) := by
  refine ⟨⟨by decide, by decide, by decide⟩, ?_⟩
  rintro fs ⟨f, hf, hfk⟩ hlog
  rcases log_name_source hlog with ⟨a, r, hmem, hr, hname⟩
  have hidx : a.ruleIdx = 9 := by
    have hni := rule_name_determines_index a.ruleIdx r hr
    rw [hname] at hni
    simpa using hni
  have hrn : r = no_data := by
    rw [hidx] at hr
    simpa [catalog] using hr.symm
  rcases mem_actsAll.1 hmem with ⟨r2, hr2, hpr⟩
  rw [hr2] at hr
  rcases declareFacts_db initState fs with ⟨e, he, hmap⟩
  have hwd : ∃ w ∈ (declareFacts initState fs).db, w.fact.kind = .diagnosis := by
    rw [← hmap] at hf
    rcases List.mem_map.1 hf with ⟨w, hw, hwf⟩
    refine ⟨w, ?_, by rw [hwf]; exact hfk⟩
    rw [he]
    exact List.mem_append_right _ hw
  rcases hwd with ⟨w, hw, hwk⟩
  have hne := matchPattern_ne_of_kind hw hwk
  have hr2n : r2 = no_data := by
    rw [hidx] at hr2
    simpa [catalog] using hr2.symm
  rw [hr2n, ruleActs_no_data, if_neg (fun hc => hne hc.1)] at hpr
  exact absurd hpr (by simp)

/-- C1 witness: the fallback suppression applied to the concrete fact set
containing one Diagnosis fact. -/
theorem c1_no_data_fallback_witness :
    "no_data" ∉ (execute [Fact.mk .diagnosis []]).log :=
  c1_no_data_fallback.2 [Fact.mk .diagnosis []] ⟨Fact.mk .diagnosis [], by decide, rfl⟩

/-- The Lab and Crop facts of the join test. -/
def c2Lab : Fact := Fact.mk .lab [("N", .vNum 30), ("P", .vNum 40), ("K", .vNum 45)]

/-- The Crop fact of the join test. -/
def c2Crop : Fact := Fact.mk .crop [("name", .vStr "tomato"), ("stage", .vStr "flowering")]

/-- C2: Lab(N=30,P=40,K=45) with Crop(tomato, flowering) fires the generic
NPK rule, producing all three low-nutrient fertilizer recommendations, and
the crop-stage rule, producing exactly the potassium stage advice (and hence
not the vegetative nitrogen advice). -/
theorem c2_join_correctness :
    (execute [c2Lab, c2Crop]).log = ["fertilizer_npk_evaluation", "crop_stage_specific"] ∧
    (∃ w ∈ (execute [c2Lab, c2Crop]).db,
      w.fact = Fact.mk .recommendation [("fertilizer_recommendations", .vList
        ["Apply nitrogen fertilizer (e.g., Urea or CAN) - consider split dosing",
         "Apply phosphorus fertilizer (e.g., Single Super Phosphate) at planting or as recommended",
         "Apply potassium fertilizer (e.g., MOP) to boost fruiting/stress tolerance"])]) ∧
    (∃ w ∈ (execute [c2Lab, c2Crop]).db,
      w.fact = Fact.mk .recommendation [("stage_advice", .vList
        ["Increase potassium to support flowering/fruition"])]) ∧
    (∀ w ∈ (execute [c2Lab, c2Crop]).db, ∀ e ∈ w.fact.attrs, e.1 = "stage_advice" →
      e.2 = Value.vList ["Increase potassium to support flowering/fruition"]) ∧
    "Increase nitrogen to support vegetative growth (split applications)" ∉
      ["Increase potassium to support flowering/fruition"] := by
  exact ⟨by decide, by decide, by decide, by decide, by decide⟩

/-- C3 counterexample: a Soil fact carrying only a numeric ph of 5.49 — and
no `type` attribute — does not fire `soil_ph_issue`, because the rule's
pattern also requires the `type` attribute to be present; the claim as
stated, quantified over every Soil fact with a numeric ph, is therefore
false. -/
theorem c3_counterexample :
    (Fact.mk .soil [("ph", Value.vNum (mkRat 549 100))]).get "ph" =
      some (Value.vNum (mkRat 549 100)) ∧
    "soil_ph_issue" ∉ (execute [Fact.mk .soil [("ph", Value.vNum (mkRat 549 100))]]).log := by
  exact ⟨by decide, by decide⟩

/-- A Soil fact of the wire-contract shape with the given ph value. -/
def soilFact (q : Rat) : Fact :=
  Fact.mk .soil [("type", .vStr "loam"), ("moisture", .vStr "adequate"), ("ph", .vNum q)]

/-- C3 (amended): for Soil facts carrying a `type` attribute alongside a
numeric ph, the pH-extremity guard accepts exactly ph < 5.5 or ph > 7.8
(boundary 5.5 excluded); concretely, Soil(type, ph=5.5) does not fire
`soil_ph_issue`, Soil(type, ph=5.49) fires it with the acidic note, and
Soil(type, ph=7.81) fires it with the alkaline note. -/
theorem c3_soil_ph_boundary :
    (∀ (tv : Value) (q : Rat),
      soil_ph_issue.test [("stype", tv), ("ph", Value.vNum q)] = true ↔
        (q < mkRat 11 2 ∨ q > mkRat 39 5)) ∧
    "soil_ph_issue" ∉ (execute [soilFact (mkRat 11 2)]).log ∧
    ((execute [soilFact (mkRat 549 100)]).log = ["soil_ph_issue"] ∧
      ∃ w ∈ (execute [soilFact (mkRat 549 100)]).db,
        w.fact = Fact.mk .recommendation
          [("soil_ph_note", .vStr "Soil is acidic (pH=5.49). Consider liming to raise pH.")]) ∧
    ((execute [soilFact (mkRat 781 100)]).log = ["soil_ph_issue"] ∧
      ∃ w ∈ (execute [soilFact (mkRat 781 100)]).db,
        w.fact = Fact.mk .recommendation
          [("soil_ph_note", .vStr "Soil is alkaline (pH=7.81). Consider sulfur or acidifying amendments.")]) := by
  refine ⟨?_, by decide, ⟨by decide, by decide⟩, ⟨by decide, by decide⟩⟩
  intro tv q
  simp [soil_ph_issue, soil_ph_issue_test, lookupB, List.lookup]

/-- C3 witness: the guard characterisation applied at ph = 5. -/
theorem c3_soil_ph_boundary_witness :
    soil_ph_issue.test [("stype", Value.vStr "loam"), ("ph", Value.vNum 5)] = true :=
  (c3_soil_ph_boundary.1 (Value.vStr "loam") 5).mpr (Or.inl (by decide))

/-- C4: for every set of initially declared facts, running again after the
first run reached quiescence is a no-op: the whole engine state — fact base,
fired set and log — is unchanged, so zero additional activations fire. -/
theorem c4_run_idempotent (fs : List Fact) :
    run (execute fs) = execute fs ∧ (run (execute fs)).log = (execute fs).log := by
  have h : eligible (execute fs) = [] := eligible_run (declareFacts initState fs)
  have heq : run (execute fs) = execute fs := run_of_quiescent h
  exact ⟨heq, by rw [heq]⟩

/-- C4 witness: idempotence at the empty initial fact set. -/
theorem c4_run_idempotent_witness :
    run (execute []) = execute [] ∧ (run (execute [])).log = (execute []).log :=
  c4_run_idempotent []

/-- One advisory session of the spec: reset the engine, declare the facts,
run to quiescence. -/
def run_sequence (s : EngineState) (fs : List Fact) : EngineState :=
  run (declareFacts (reset s) fs)

/-- C5: the reset-declare-run sequence is deterministic — from any two prior
engine states (hence on repeated executions), the same declared facts yield
identical Diagnosis and Recommendation outputs and an identical firing
order, because reset clears all engine state and the loop is a function. -/
theorem c5_deterministic (s1 s2 : EngineState) (fs : List Fact) :
    get_results (run_sequence s1 fs) = get_results (run_sequence s2 fs) ∧
    (run_sequence s1 fs).log = (run_sequence s2 fs).log :=
  ⟨rfl, rfl⟩

/-- C5 witness: determinism at concrete states and facts. -/
theorem c5_deterministic_witness :
    get_results (run_sequence initState []) = get_results (run_sequence initState []) ∧
    (run_sequence initState []).log = (run_sequence initState []).log :=
  c5_deterministic initState initState []

/-- C6: for every finite set of initially declared facts the run terminates:
it reaches quiescence (no eligible unfired activation remains), and giving
the loop any more fuel changes nothing.  The bound holds because rule bodies
declare only Diagnosis/Recommendation facts, which no positive pattern of
the catalog observes, and no activation fires twice. -/
theorem c6_run_terminates (fs : List Fact) :
    eligible (execute fs) = [] ∧ ∀ n, runFuel n (execute fs) = execute fs := by
  have h : eligible (execute fs) = [] := eligible_run (declareFacts initState fs)
  exact ⟨h, runFuel_of_quiescent h⟩

/-- C6 witness: termination at the empty initial fact set. -/
theorem c6_run_terminates_witness : eligible (execute []) = [] :=
  (c6_run_terminates []).1

/-- C7: a condition requiring an attribute to equal true never matches a
fact on which that attribute is absent: generically a constrained attribute
must be present for the pattern to match, and consequently a Symptoms fact
without `mosaic` never fires `viral_mosaic` and one without `powdery_white`
never fires `powdery_mildew`. -/
theorem c7_absent_not_false :
    (∀ (p : Pattern) (b : Binding) (f : Fact) (a : String),
      (a, Constraint.lit (Value.vBool true)) ∈ p.constraints → f.get a = none →
      matchFact p b f = none) ∧
    (∀ attrs : List (String × Value),
      (Fact.mk .symptoms attrs).get "mosaic" = none →
      "viral_mosaic" ∉ (execute [Fact.mk .symptoms attrs]).log) ∧
    (∀ attrs : List (String × Value),
      (Fact.mk .symptoms attrs).get "powdery_white" = none →
      "powdery_mildew" ∉ (execute [Fact.mk .symptoms attrs]).log) := by
  refine ⟨fun p b f a hc ha => matchFact_absent hc ha, ?_, ?_⟩
  · intro attrs habs hlog
    rcases log_name_source hlog with ⟨a, r, hmem, hr, hname⟩
    have hidx : a.ruleIdx = 2 := by
      have hni := rule_name_determines_index a.ruleIdx r hr
      rw [hname] at hni
      simpa using hni
    rcases mem_actsAll.1 hmem with ⟨r2, hr2, hpr⟩
    have hr2n : r2 = viral_mosaic := by
      rw [hidx] at hr2
      simpa [catalog] using hr2.symm
    rw [hr2n] at hpr
    have hpr2 := (List.mem_filter.1 hpr).1
    rcases matchConds_single_pat (show _ ∈ matchConds _ [Cond.pat
        ⟨.symptoms, [("mosaic", .lit (.vBool true))]⟩] from hpr2) with ⟨y, hy, _⟩
    rcases mem_matchPattern hy with ⟨w, hw, hk, hmf, _⟩
    have hdb : (declareFacts initState [Fact.mk .symptoms attrs]).db =
        [⟨0, Fact.mk .symptoms attrs⟩] := rfl
    rw [hdb] at hw
    have hwe : w = ⟨0, Fact.mk .symptoms attrs⟩ := by simpa using hw
    rw [hwe] at hmf
    rw [matchFact_absent (List.mem_singleton.2 rfl) habs] at hmf
    exact absurd hmf (by simp)
  · intro attrs habs hlog
    rcases log_name_source hlog with ⟨a, r, hmem, hr, hname⟩
    have hidx : a.ruleIdx = 0 := by
      have hni := rule_name_determines_index a.ruleIdx r hr
      rw [hname] at hni
      simpa using hni
    rcases mem_actsAll.1 hmem with ⟨r2, hr2, hpr⟩
    have hr2n : r2 = powdery_mildew := by
      rw [hidx] at hr2
      simpa [catalog] using hr2.symm
    rw [hr2n] at hpr
    have hpr2 := (List.mem_filter.1 hpr).1
    rcases matchConds_single_pat (show _ ∈ matchConds _ [Cond.pat
        ⟨.symptoms, [("leaf_spots", .lit (.vBool true)), ("powdery_white", .lit (.vBool true))]⟩]
        from hpr2) with ⟨y, hy, _⟩
    rcases mem_matchPattern hy with ⟨w, hw, hk, hmf, _⟩
    have hdb : (declareFacts initState [Fact.mk .symptoms attrs]).db =
        [⟨0, Fact.mk .symptoms attrs⟩] := rfl
    rw [hdb] at hw
    have hwe : w = ⟨0, Fact.mk .symptoms attrs⟩ := by simpa using hw
    rw [hwe] at hmf
    rw [matchFact_absent (show ("powdery_white", Constraint.lit (Value.vBool true)) ∈ _ by simp)
      habs] at hmf
    exact absurd hmf (by simp)

/-- C7 witness: a Symptoms fact with only `leaf_spots` fires neither rule. -/
theorem c7_absent_not_false_witness :
    "viral_mosaic" ∉ (execute [Fact.mk .symptoms [("leaf_spots", Value.vBool true)]]).log ∧
    "powdery_mildew" ∉ (execute [Fact.mk .symptoms [("leaf_spots", Value.vBool true)]]).log :=
  ⟨c7_absent_not_false.2.1 _ (by decide), c7_absent_not_false.2.2 _ (by decide)⟩

/-- C8 counterexample: the repository's fact kinds declare no required
attributes and declaration performs no validation, so declaring a Soil fact
whose ph is a string — a value the pH guard cannot interpret — succeeds and
extends the fact base instead of failing with the fact base unchanged. -/
theorem c8_counterexample :
    (declare initState (Fact.mk .soil [("type", .vStr "clay"), ("ph", .vStr "acidic")])).db =
      [⟨0, Fact.mk .soil [("type", .vStr "clay"), ("ph", .vStr "acidic")]⟩] ∧
    (declare initState (Fact.mk .soil [("type", .vStr "clay"), ("ph", .vStr "acidic")])).db ≠
      initState.db := by
  exact ⟨by decide, by decide⟩

/-- C8 (amended): `declare` is total — every fact of every kind with any
attribute mapping is accepted, receives the next identity and is appended to
the fact base; no declare-time validation or `InvalidFactError` exists. -/
theorem c8_declare_total (s : EngineState) (f : Fact) :
    (declare s f).db = s.db ++ [⟨s.nextId, f⟩] ∧ (declare s f).nextId = s.nextId + 1 ∧
    (declare s f).fired = s.fired ∧ (declare s f).log = s.log :=
  ⟨rfl, rfl, rfl, rfl⟩

/-- C8 witness: totality of declare at a concrete malformed fact. -/
theorem c8_declare_total_witness :
    (declare initState (Fact.mk .weather [("humidity", Value.vStr "high")])).db =
      initState.db ++ [⟨initState.nextId, Fact.mk .weather [("humidity", Value.vStr "high")]⟩] :=
  (c8_declare_total initState (Fact.mk .weather [("humidity", Value.vStr "high")])).1

/-- C9 counterexample: an initial fact set consisting of a single Diagnosis
fact suppresses the fallback while firing no rule, so working memory after
the run contains no Recommendation at all. -/
theorem c9_counterexample :
    ¬ ∃ w ∈ (execute [Fact.mk .diagnosis []]).db, w.fact.kind = .recommendation := by
  decide

/-- C9 (amended): for every initial fact set containing no Diagnosis fact,
working memory after the run contains at least one Recommendation: either a
domain rule fired (every non-empty rule body declares a Recommendation) or
nothing fired and the fallback declared the insufficient-data
Recommendation. -/
theorem c9_recommendation_guaranteed (fs : List Fact)
    (hd : ∀ f ∈ fs, f.kind ≠ .diagnosis) :
    ∃ w ∈ (execute fs).db, w.fact.kind = .recommendation := by
  have hq : eligible (execute fs) = [] := eligible_run (declareFacts initState fs)
  have h0 : Inv9 (declareFacts initState fs) (declareFacts initState fs) := by
    refine ⟨ext_refl _, ?_, ?_⟩
    · intro hin
      rw [(declareFacts_fired initState fs).1] at hin
      exact absurd hin (by simp [initState])
    · intro w hw _
      exact Or.inl hw
  have hinv : Inv9 (declareFacts initState fs) (execute fs) :=
    runFuel_inv9 (fuelBound (declareFacts initState fs)) _ _ h0
  rcases hinv with ⟨hx, hnd, hdiag⟩
  by_cases hD : matchPattern (execute fs).db ⟨.diagnosis, []⟩ [] = []
  · by_cases hR : matchPattern (execute fs).db ⟨.recommendation, []⟩ [] = []
    · have hmem := noDataAct_mem hD hR
      have hfired : noDataAct ∈ (execute fs).fired := by
        by_contra hnf
        have hin : noDataAct ∈ eligible (execute fs) :=
          List.mem_filter.2 ⟨hmem, by simpa using hnf⟩
        rw [hq] at hin
        exact absurd hin (by simp)
      exact hnd hfired
    · exact exists_kind_of_matchPattern_ne hR
  · rcases exists_kind_of_matchPattern_ne hD with ⟨w, hw, hwk⟩
    rcases hdiag w hw hwk with hin | hex
    · exfalso
      rcases declareFacts_db initState fs with ⟨e, he, hmap⟩
      rw [he] at hin
      simp only [initState, List.nil_append] at hin
      have hwf : w.fact ∈ fs := by
        rw [← hmap]
        exact List.mem_map_of_mem _ hin
      exact hd w.fact hwf hwk
    · exact hex

/-- C9 witness: the guarantee at the empty initial fact set. -/
theorem c9_recommendation_guaranteed_witness :
    ∃ w ∈ (execute []).db, w.fact.kind = .recommendation :=
  c9_recommendation_guaranteed [] (by decide)

/-- C10: declaring a Soil fact whose ph is None is safe: the guard — which
mirrors the source's `ph is not None and (...)` check — evaluates to false on
a None ph before any numeric comparison, the run completes normally and
`soil_ph_issue` does not fire. -/
theorem c10_soil_ph_none_safe :
    (∀ b : Binding, lookupB b "ph" = some Value.vNone → soil_ph_issue.test b = false) ∧
    (execute [Fact.mk .soil
      [("type", .vStr "loam"), ("moisture", .vStr "low"), ("ph", Value.vNone)]]).log =
      ["no_data"] ∧
    "soil_ph_issue" ∉ (execute [Fact.mk .soil
      [("type", .vStr "loam"), ("moisture", .vStr "low"), ("ph", Value.vNone)]]).log := by
  refine ⟨?_, by decide, by decide⟩
  intro b hb
  simp [soil_ph_issue, soil_ph_issue_test, hb]

/-- C10 witness: the guard applied to a binding whose ph is None. -/
theorem c10_soil_ph_none_safe_witness :
    soil_ph_issue.test [("ph", Value.vNone)] = false :=
  c10_soil_ph_none_safe.1 [("ph", Value.vNone)] (by decide)

end AgriSense
